import Mathlib

/-!
Shallow embedding of the rwhois relay (src/main.rs).

A client session (`rwhois_process`) reads framed lines from the client.
Each line is split on whitespace; a single-token line whose token splits
on `.` into more than one label is looked up (by its final label) in the
static table `WHOIS_LUT`.  On a hit the relay connects to the upstream
whois host on port 43, writes `token\r\n`, and copies the upstream
response bytes back to the client; on a miss it writes the literal text
"Invalid domain name" to the client and returns
`RWhoisError::InvalidDomainError`.  Framing errors and upstream
connect/write/copy failures are contained and the loop continues; end of
stream ends the session with `Ok(())`.

Strings of the source are embedded as `List Char` (Rust `&str` as its
character sequence); bytes (`as_bytes`, the relayed response) as
`List Nat`.  All the wire literals involved are ASCII, where the byte
encoding of a string is the pointwise character code.

The network is an oracle `net : Nat → UpstreamOutcome` giving the outcome
of the k-th upstream connection attempt of the session; the tokio line
decoder is a list of `LineEvent`s (decoded line or framing error),
exhausted at end of stream.  Observable behaviour is an `Effect` trace:
connection attempts, bytes written upstream, bytes written to the client,
and the `log`/`info`/`error` calls of the source.
-/

/-- Rust `str::split` on a character predicate: cuts at every matching
character and keeps empty pieces (`"".split` yields `[""]`,
`"a.".split('.')` yields `["a", ""]`). -/
def splitPred (p : Char → Bool) : List Char → List (List Char)
  | [] => [[]]
  | c :: cs =>
    if p c then [] :: splitPred p cs
    else
      match splitPred p cs with
      | t :: ts => (c :: t) :: ts
      | [] => [[c]]

/-- Rust `str::split_whitespace`: split on whitespace characters and drop
the empty pieces, so only the whitespace-delimited tokens remain.
(`l.split_whitespace().collect()` in the source.) -/
def split_whitespace (l : List Char) : List (List Char) :=
  (splitPred Char.isWhitespace l).filter (fun t => t ≠ [])

/-- Rust `splits[0].split(".")` of the source: split on `'.'`, keeping
empty labels. -/
def splitDot (token : List Char) : List (List Char) :=
  splitPred (fun c => c = '.') token

/-- Byte encoding of a source string (`as_bytes`); the character code of
each character, which is the UTF-8 byte for the ASCII data involved. -/
def strBytes (cs : List Char) : List Nat :=
  cs.map Char.toNat

/-- The static suffix routing table literal of `WHOIS_LUT` in the source:
final label ↦ upstream whois host. -/
def whoisEntries : List (List Char × List Char) :=
  [ ("ad".toList, "whois.ripe.net".toList),
    ("ae".toList, "whois.aeda.net.ae".toList),
    ("aero".toList, "whois.aero".toList),
    ("af".toList, "whois.nic.af".toList),
    ("ca".toList, "whois.cira.ca".toList),
    ("ch".toList, "whois.nic.ch".toList),
    ("co".toList, "whois.nic.co".toList),
    ("com".toList, "whois.verisign-grs.com".toList),
    ("dev".toList, "whois.nic.google".toList),
    ("in".toList, "whois.registry.in".toList),
    ("io".toList, "whois.nic.io".toList),
    ("net".toList, "whois.verisign-grs.com".toList),
    ("org".toList, "whois.publicregistry.net".toList) ]

/-- `WHOIS_LUT.get(suffix)`: exact-match lookup of the final label in the
routing table (the keys are pairwise distinct, so association-list lookup
agrees with the source's hash-map lookup). -/
def WHOIS_LUT (s : List Char) : Option (List Char) :=
  (whoisEntries.find? (fun p => p.1 == s)).map Prod.snd

/-- `enum RWhoisError` of the source.  (`CodecError`'s `LinesCodecError`
payload is opaque library data and carries no information we use.) -/
inductive RWhoisError where
  | CodecError
  | InvalidDomainError
  deriving DecidableEq, Repr

/-- One event produced by the framed line decoder (`codec.next()`
returning `Some`): a decoded line, or a framing (codec) error. -/
inductive LineEvent where
  | ok (l : List Char)
  | err
  deriving DecidableEq, Repr

/-- Outcome of `whois_read.copy(&mut client_write)`: the bytes the
upstream produced (all relayed to the client before the copy ends), and
whether the copy ended in an error (logged) rather than upstream EOF. -/
structure CopyOutcome where
  bytes : List Nat
  copyErr : Bool
  deriving DecidableEq, Repr

/-- Outcome of one `TcpStream::connect` attempt to the upstream, and — if
it connects — of the subsequent `write_all` and copy on that connection. -/
inductive UpstreamOutcome where
  | connectFail
  | connected (writeOk : Bool) (cp : CopyOutcome)
  deriving DecidableEq, Repr

/-- One observable step of a session: sockets touched and log lines
emitted.  The peer address appears only inside log text in the source and
is omitted; each `log*` constructor corresponds to one `info!`/`error!`
call site. -/
inductive Effect where
  | logWouldUse (host token : List Char)
  | connectAttempt (host : List Char) (port : Nat)
  | logConnectError (host : List Char)
  | upstreamWrite (bytes : List Nat)
  | clientWrite (bytes : List Nat)
  | logCopyError
  | logFramingError
  | logClose
  deriving DecidableEq, Repr

/-- Whether an effect is one of the `error!` log call sites. -/
def Effect.isErrorLog : Effect → Bool
  | .logConnectError _ => true
  | .logCopyError => true
  | .logFramingError => true
  | _ => false

/-- The body of the `Ok(ref l)` arm of `rwhois_process` for one decoded
line `l`: the effects it emits, the updated count of upstream connection
attempts, and `some e` when the arm `return`s with an error.

Mirrors the source: split on whitespace; if exactly one token, split it
on `.`; if more than one label, look up the last label
(`pairs[total_pairs - 1]`). On a hit, log, connect to `host:43`; if
connected, `write_all` the token followed by CRLF, and if that succeeded
copy the upstream bytes to the client (logging a copy error); a failed
connect is logged; a failed write is not. On a miss, write
"Invalid domain name" to the client and return `InvalidDomainError`. -/
def processLine (net : Nat → UpstreamOutcome) (k : Nat) (l : List Char) :
    List Effect × Nat × Option RWhoisError :=
  match split_whitespace l with
  | [token] =>
    let pairs := splitDot token
    if pairs.length > 1 then
      match WHOIS_LUT (pairs.getLastD []) with
      | some whois_hostname =>
        match net k with
        | .connectFail =>
          ([.logWouldUse whois_hostname token,
            .connectAttempt whois_hostname 43,
            .logConnectError whois_hostname], k + 1, none)
        | .connected writeOk cp =>
          if writeOk then
            ([.logWouldUse whois_hostname token,
              .connectAttempt whois_hostname 43,
              .upstreamWrite (strBytes (token ++ ['\r', '\n'])),
              .clientWrite cp.bytes] ++
              (if cp.copyErr then [.logCopyError] else []), k + 1, none)
          else
            ([.logWouldUse whois_hostname token,
              .connectAttempt whois_hostname 43,
              .upstreamWrite (strBytes (token ++ ['\r', '\n']))], k + 1, none)
      | none =>
        ([.clientWrite (strBytes "Invalid domain name".toList)], k,
          some .InvalidDomainError)
    else ([], k, none)
  | _ => ([], k, none)

/-- The session loop of `rwhois_process`, over the list of decoder events
(`k` counts upstream connection attempts made so far, indexing `net`):
a framing error is logged and the loop continues; a decoded line is
handled by `processLine`, continuing unless it returned an error; end of
stream logs the close and returns `Ok(())`. -/
def rwhois_process (net : Nat → UpstreamOutcome) :
    Nat → List LineEvent → List Effect × Except RWhoisError Unit
  | _, [] => ([Effect.logClose], Except.ok ())
  | k, LineEvent.err :: rest =>
    let r := rwhois_process net k rest
    (Effect.logFramingError :: r.1, r.2)
  | k, LineEvent.ok l :: rest =>
    match processLine net k l with
    | (effs, k2, none) =>
      let r := rwhois_process net k2 rest
      (effs ++ r.1, r.2)
    | (effs, _, some e) => (effs, Except.error e)

/-- The upstream connections attempted in a trace, with their ports. -/
def connectsOf (effs : List Effect) : List (List Char × Nat) :=
  effs.filterMap fun e =>
    match e with
    | .connectAttempt h p => some (h, p)
    | _ => none

/-- The byte strings written to upstream connections in a trace. -/
def upstreamWritesOf (effs : List Effect) : List (List Nat) :=
  effs.filterMap fun e =>
    match e with
    | .upstreamWrite bs => some bs
    | _ => none

/-- The byte strings written to the client in a trace. -/
def clientChunksOf (effs : List Effect) : List (List Nat) :=
  effs.filterMap fun e =>
    match e with
    | .clientWrite bs => some bs
    | _ => none

/-- All bytes the client receives from a trace, in order. -/
def clientBytesOf (effs : List Effect) : List Nat :=
  (clientChunksOf effs).flatten

/-! ### Helper lemmas -/

theorem splitPred_ne_nil (p : Char → Bool) (l : List Char) : splitPred p l ≠ [] := by
  cases l with
  | nil => simp [splitPred]
  | cons c cs =>
    unfold splitPred
    split
    · simp
    · split <;> simp

theorem splitPred_append_sep (p : Char → Bool) (c : Char) (hc : p c = true) (l : List Char) :
    splitPred p (l ++ [c]) = splitPred p l ++ [[]] := by
  induction l with
  | nil => simp [splitPred, hc]
  | cons a t ih =>
    by_cases ha : p a
    · simp [splitPred, ha, ih]
    · have hne := splitPred_ne_nil p t
      cases hst : splitPred p t with
      | nil => exact absurd hst hne
      | cons t0 ts => simp [splitPred, ha, ih, hst]

theorem splitDot_concat_dot (cs : List Char) :
    splitDot (cs ++ ['.']) = splitDot cs ++ [[]] :=
  splitPred_append_sep _ '.' (by decide) cs

theorem WHOIS_LUT_of_upper (s : List Char) (c : Char) (hc : c ∈ s) (hu : c.isUpper = true) :
    WHOIS_LUT s = none := by
  have hall : ∀ p ∈ whoisEntries, ∀ d ∈ p.1, d.isUpper = false := by decide
  unfold WHOIS_LUT
  rw [Option.map_eq_none', List.find?_eq_none]
  intro p hp
  simp only [beq_iff_eq]
  intro he
  have : c.isUpper = false := hall p hp c (he ▸ hc)
  rw [hu] at this
  simp at this

theorem rwhois_process_nil (net : Nat → UpstreamOutcome) (k : Nat) :
    rwhois_process net k [] = ([Effect.logClose], Except.ok ()) := rfl

theorem rwhois_process_cons_err (net : Nat → UpstreamOutcome) (k : Nat)
    (rest : List LineEvent) :
    rwhois_process net k (LineEvent.err :: rest) =
      (Effect.logFramingError :: (rwhois_process net k rest).1,
        (rwhois_process net k rest).2) := by
  simp [rwhois_process]

theorem rwhois_process_cons_ok_none (net : Nat → UpstreamOutcome) (k : Nat)
    (l : List Char) (rest : List LineEvent) (effs : List Effect) (k2 : Nat)
    (h : processLine net k l = (effs, k2, none)) :
    rwhois_process net k (LineEvent.ok l :: rest) =
      (effs ++ (rwhois_process net k2 rest).1, (rwhois_process net k2 rest).2) := by
  simp [rwhois_process, h]

theorem rwhois_process_cons_ok_some (net : Nat → UpstreamOutcome) (k : Nat)
    (l : List Char) (rest : List LineEvent) (effs : List Effect) (k2 : Nat)
    (e : RWhoisError) (h : processLine net k l = (effs, k2, some e)) :
    rwhois_process net k (LineEvent.ok l :: rest) = (effs, Except.error e) := by
  simp [rwhois_process, h]

theorem processLine_non_single (net : Nat → UpstreamOutcome) (k : Nat) (l : List Char)
    (h : (split_whitespace l).length ≠ 1) :
    processLine net k l = ([], k, none) := by
  match hs : split_whitespace l with
  | [] => simp [processLine, hs]
  | [a] => exact absurd (by rw [hs]; rfl) h
  | a :: b :: t => simp [processLine, hs]

theorem processLine_few_labels (net : Nat → UpstreamOutcome) (k : Nat)
    (l token : List Char) (h1 : split_whitespace l = [token])
    (h2 : ¬ (splitDot token).length > 1) :
    processLine net k l = ([], k, none) := by
  simp [processLine, h1, h2]

theorem processLine_invalid (net : Nat → UpstreamOutcome) (k : Nat) (l token : List Char)
    (h1 : split_whitespace l = [token])
    (h2 : (splitDot token).length > 1)
    (h3 : WHOIS_LUT ((splitDot token).getLastD []) = none) :
    processLine net k l =
      ([Effect.clientWrite (strBytes "Invalid domain name".toList)], k,
        some RWhoisError.InvalidDomainError) := by
  rw [List.getLastD_eq_getLast?] at h3
  simp [processLine, h1, h2, h3]

theorem processLine_connect_fail (net : Nat → UpstreamOutcome) (k : Nat)
    (l token host : List Char)
    (h1 : split_whitespace l = [token])
    (h2 : (splitDot token).length > 1)
    (h3 : WHOIS_LUT ((splitDot token).getLastD []) = some host)
    (h4 : net k = UpstreamOutcome.connectFail) :
    processLine net k l =
      ([Effect.logWouldUse host token, Effect.connectAttempt host 43,
        Effect.logConnectError host], k + 1, none) := by
  rw [List.getLastD_eq_getLast?] at h3
  simp [processLine, h1, h2, h3, h4]

theorem processLine_write_ok (net : Nat → UpstreamOutcome) (k : Nat)
    (l token host : List Char) (cp : CopyOutcome)
    (h1 : split_whitespace l = [token])
    (h2 : (splitDot token).length > 1)
    (h3 : WHOIS_LUT ((splitDot token).getLastD []) = some host)
    (h4 : net k = UpstreamOutcome.connected true cp) :
    processLine net k l =
      ([Effect.logWouldUse host token, Effect.connectAttempt host 43,
        Effect.upstreamWrite (strBytes (token ++ ['\r', '\n'])),
        Effect.clientWrite cp.bytes] ++
        (if cp.copyErr then [Effect.logCopyError] else []), k + 1, none) := by
  rw [List.getLastD_eq_getLast?] at h3
  simp [processLine, h1, h2, h3, h4]

theorem processLine_write_fail (net : Nat → UpstreamOutcome) (k : Nat)
    (l token host : List Char) (cp : CopyOutcome)
    (h1 : split_whitespace l = [token])
    (h2 : (splitDot token).length > 1)
    (h3 : WHOIS_LUT ((splitDot token).getLastD []) = some host)
    (h4 : net k = UpstreamOutcome.connected false cp) :
    processLine net k l =
      ([Effect.logWouldUse host token, Effect.connectAttempt host 43,
        Effect.upstreamWrite (strBytes (token ++ ['\r', '\n']))], k + 1, none) := by
  rw [List.getLastD_eq_getLast?] at h3
  simp [processLine, h1, h2, h3, h4]

theorem processLine_no_codec (net : Nat → UpstreamOutcome) (k : Nat) (l : List Char)
    (e : RWhoisError) (h : (processLine net k l).2.2 = some e) :
    e = RWhoisError.InvalidDomainError := by
  rcases hsp : split_whitespace l with _ | ⟨token, _ | ⟨b, t⟩⟩
  · rw [processLine_non_single net k l (by rw [hsp]; simp)] at h
    simp at h
  · by_cases h2 : (splitDot token).length > 1
    · cases h3 : WHOIS_LUT ((splitDot token).getLastD []) with
      | none =>
        rw [processLine_invalid net k l token hsp h2 h3] at h
        simp at h
        exact h.symm
      | some host =>
        cases hnet : net k with
        | connectFail =>
          rw [processLine_connect_fail net k l token host hsp h2 h3 hnet] at h
          simp at h
        | connected wok cp =>
          cases wok with
          | true =>
            rw [processLine_write_ok net k l token host cp hsp h2 h3 hnet] at h
            simp at h
          | false =>
            rw [processLine_write_fail net k l token host cp hsp h2 h3 hnet] at h
            simp at h
    · rw [processLine_few_labels net k l token hsp h2] at h
      simp at h
  · rw [processLine_non_single net k l (by rw [hsp]; simp)] at h
    simp at h

theorem rwhois_result_not_codec (net : Nat → UpstreamOutcome) (events : List LineEvent)
    (k : Nat) :
    (rwhois_process net k events).2 ≠ Except.error RWhoisError.CodecError := by
  induction events generalizing k with
  | nil => simp [rwhois_process]
  | cons ev rest ih =>
    cases ev with
    | err => simpa [rwhois_process] using ih k
    | ok l =>
      rcases hp : processLine net k l with ⟨effs, k2, oe⟩
      cases oe with
      | none =>
        rw [rwhois_process_cons_ok_none net k l rest effs k2 hp]
        exact ih k2
      | some e =>
        have he : e = RWhoisError.InvalidDomainError :=
          processLine_no_codec net k l e (by rw [hp])
        rw [rwhois_process_cons_ok_some net k l rest effs k2 e hp]
        simp [he]

theorem splitDot_ne_nil (t : List Char) : splitDot t ≠ [] :=
  splitPred_ne_nil _ t

theorem getLastD_of_concat {α : Type} (l : List α) (a d : α) :
    (l ++ [a]).getLastD d = a := by
  simp

/-! ### Claims -/

/-- C1: an input line whose single whitespace-delimited token splits into
two or more dot-separated labels, with the last label absent from the
routing table, makes the session write exactly the bytes
"Invalid domain name" (no trailing newline) to the client and terminate,
returning `InvalidDomainError`. -/
theorem unrouted_suffix_rejects_and_terminates
    (net : Nat → UpstreamOutcome) (k : Nat) (l token : List Char)
    (rest : List LineEvent)
    (h1 : split_whitespace l = [token])
    (h2 : (splitDot token).length > 1)
    (h3 : WHOIS_LUT ((splitDot token).getLastD []) = none) :
    rwhois_process net k (LineEvent.ok l :: rest) =
      ([Effect.clientWrite (strBytes "Invalid domain name".toList)],
        Except.error RWhoisError.InvalidDomainError) :=
  rwhois_process_cons_ok_some net k l rest _ _ _
    (processLine_invalid net k l token h1 h2 h3)

theorem unrouted_suffix_rejects_witness :
    split_whitespace "example.zz".toList = ["example.zz".toList] ∧
    (splitDot "example.zz".toList).length > 1 ∧
    WHOIS_LUT ((splitDot "example.zz".toList).getLastD []) = none ∧
    rwhois_process (fun _ => UpstreamOutcome.connectFail) 0
        [LineEvent.ok "example.zz".toList] =
      ([Effect.clientWrite (strBytes "Invalid domain name".toList)],
        Except.error RWhoisError.InvalidDomainError) :=
  ⟨by decide, by decide, by decide,
    unrouted_suffix_rejects_and_terminates (fun _ => UpstreamOutcome.connectFail)
      0 "example.zz".toList "example.zz".toList []
      (by decide) (by decide) (by decide)⟩

/-- C2: a routable query whose trailing label maps to upstream host `U`
makes the relay open exactly one outbound connection, to `U` on port 43,
and write to it exactly the client's identifier token followed by CRLF,
nothing more. -/
theorem routed_query_single_connection_exact_request
    (net : Nat → UpstreamOutcome) (k : Nat) (l token host : List Char)
    (wok : Bool) (cp : CopyOutcome)
    (h1 : split_whitespace l = [token])
    (h2 : (splitDot token).length > 1)
    (h3 : WHOIS_LUT ((splitDot token).getLastD []) = some host)
    (h4 : net k = UpstreamOutcome.connected wok cp) :
    connectsOf (processLine net k l).1 = [(host, 43)] ∧
    upstreamWritesOf (processLine net k l).1 =
      [strBytes (token ++ ['\r', '\n'])] := by
  cases wok with
  | false =>
    rw [processLine_write_fail net k l token host cp h1 h2 h3 h4]
    simp [connectsOf, upstreamWritesOf]
  | true =>
    rw [processLine_write_ok net k l token host cp h1 h2 h3 h4]
    cases hcp : cp.copyErr <;>
      simp [connectsOf, upstreamWritesOf, hcp]

theorem routed_query_single_connection_witness :
    split_whitespace "example.com".toList = ["example.com".toList] ∧
    (splitDot "example.com".toList).length > 1 ∧
    WHOIS_LUT ((splitDot "example.com".toList).getLastD []) =
      some "whois.verisign-grs.com".toList ∧
    (fun _ : Nat => UpstreamOutcome.connected true ⟨[], false⟩) 0 =
      UpstreamOutcome.connected true ⟨[], false⟩ ∧
    (connectsOf
        (processLine (fun _ => UpstreamOutcome.connected true ⟨[], false⟩) 0
          "example.com".toList).1 =
      [("whois.verisign-grs.com".toList, 43)] ∧
    upstreamWritesOf
        (processLine (fun _ => UpstreamOutcome.connected true ⟨[], false⟩) 0
          "example.com".toList).1 =
      [strBytes ("example.com".toList ++ ['\r', '\n'])]) :=
  ⟨by decide, by decide, by decide, rfl,
    routed_query_single_connection_exact_request
      (fun _ => UpstreamOutcome.connected true ⟨[], false⟩) 0
      "example.com".toList "example.com".toList "whois.verisign-grs.com".toList
      true ⟨[], false⟩ (by decide) (by decide) (by decide) rfl⟩

/-- C3: a line that is not a single whitespace-delimited token, or whose
single token has fewer than 2 dot-separated labels, is silently ignored:
no effects at all (no connection, no client bytes), no error, and the
session just continues with the next line. -/
theorem non_query_line_silently_ignored
    (net : Nat → UpstreamOutcome) (k : Nat) (l : List Char)
    (rest : List LineEvent)
    (h : (split_whitespace l).length ≠ 1 ∨
      ∃ token, split_whitespace l = [token] ∧ (splitDot token).length < 2) :
    processLine net k l = ([], k, none) ∧
    rwhois_process net k (LineEvent.ok l :: rest) = rwhois_process net k rest := by
  have hp : processLine net k l = ([], k, none) := by
    rcases h with h | ⟨token, h1, h2⟩
    · exact processLine_non_single net k l h
    · exact processLine_few_labels net k l token h1 (by omega)
  refine ⟨hp, ?_⟩
  rw [rwhois_process_cons_ok_none net k l rest [] k hp]
  simp

theorem non_query_line_ignored_witness :
    ((split_whitespace "help example.com".toList).length ≠ 1 ∨
      ∃ token, split_whitespace "help example.com".toList = [token] ∧
        (splitDot token).length < 2) ∧
    processLine (fun _ => UpstreamOutcome.connectFail) 0
        "help example.com".toList = ([], 0, none) ∧
    rwhois_process (fun _ => UpstreamOutcome.connectFail) 0
        (LineEvent.ok "help example.com".toList :: [LineEvent.err]) =
      rwhois_process (fun _ => UpstreamOutcome.connectFail) 0 [LineEvent.err] :=
  ⟨Or.inl (by decide),
    non_query_line_silently_ignored (fun _ => UpstreamOutcome.connectFail) 0
      "help example.com".toList [LineEvent.err] (Or.inl (by decide))⟩

/-- C4: relaying the upstream response is byte-preserving: whatever byte
sequence `B` the upstream connection produces before it closes, the
client receives exactly `B`, in order, with nothing inserted, deleted or
transformed. -/
theorem relay_byte_preserving
    (net : Nat → UpstreamOutcome) (k : Nat) (l token host : List Char)
    (B : List Nat) (cerr : Bool)
    (h1 : split_whitespace l = [token])
    (h2 : (splitDot token).length > 1)
    (h3 : WHOIS_LUT ((splitDot token).getLastD []) = some host)
    (h4 : net k = UpstreamOutcome.connected true ⟨B, cerr⟩) :
    clientBytesOf (processLine net k l).1 = B := by
  rw [processLine_write_ok net k l token host ⟨B, cerr⟩ h1 h2 h3 h4]
  cases cerr <;> simp [clientBytesOf, clientChunksOf]

theorem relay_byte_preserving_witness :
    split_whitespace "example.com".toList = ["example.com".toList] ∧
    (splitDot "example.com".toList).length > 1 ∧
    WHOIS_LUT ((splitDot "example.com".toList).getLastD []) =
      some "whois.verisign-grs.com".toList ∧
    clientBytesOf
        (processLine
          (fun _ => UpstreamOutcome.connected true ⟨[104, 105, 10], false⟩) 0
          "example.com".toList).1 = [104, 105, 10] :=
  ⟨by decide, by decide, by decide,
    relay_byte_preserving
      (fun _ => UpstreamOutcome.connected true ⟨[104, 105, 10], false⟩) 0
      "example.com".toList "example.com".toList "whois.verisign-grs.com".toList
      [104, 105, 10] false (by decide) (by decide) (by decide) rfl⟩

/-- C5: an upstream connect failure does not terminate the session: the
failure is logged, the query is abandoned with no bytes sent to the
client, and the rest of the client connection is processed exactly as if
the loop had just moved on to the next line. -/
theorem connect_failure_preserves_session
    (net : Nat → UpstreamOutcome) (k : Nat) (l token host : List Char)
    (rest : List LineEvent)
    (h1 : split_whitespace l = [token])
    (h2 : (splitDot token).length > 1)
    (h3 : WHOIS_LUT ((splitDot token).getLastD []) = some host)
    (h4 : net k = UpstreamOutcome.connectFail) :
    processLine net k l =
      ([Effect.logWouldUse host token, Effect.connectAttempt host 43,
        Effect.logConnectError host], k + 1, none) ∧
    Effect.logConnectError host ∈ (processLine net k l).1 ∧
    clientChunksOf (processLine net k l).1 = [] ∧
    rwhois_process net k (LineEvent.ok l :: rest) =
      ([Effect.logWouldUse host token, Effect.connectAttempt host 43,
          Effect.logConnectError host] ++ (rwhois_process net (k + 1) rest).1,
        (rwhois_process net (k + 1) rest).2) := by
  have hp := processLine_connect_fail net k l token host h1 h2 h3 h4
  refine ⟨hp, ?_, ?_, ?_⟩
  · rw [hp]; simp
  · rw [hp]; simp [clientChunksOf]
  · exact rwhois_process_cons_ok_none net k l rest _ _ hp

theorem connect_failure_witness :
    split_whitespace "example.com".toList = ["example.com".toList] ∧
    (splitDot "example.com".toList).length > 1 ∧
    WHOIS_LUT ((splitDot "example.com".toList).getLastD []) =
      some "whois.verisign-grs.com".toList ∧
    (fun j : Nat =>
        if j = 0 then UpstreamOutcome.connectFail
        else UpstreamOutcome.connected true ⟨[104, 105], false⟩) 0 =
      UpstreamOutcome.connectFail ∧
    rwhois_process
        (fun j =>
          if j = 0 then UpstreamOutcome.connectFail
          else UpstreamOutcome.connected true ⟨[104, 105], false⟩) 0
        (LineEvent.ok "example.com".toList ::
          [LineEvent.ok "example.org".toList]) =
      ([Effect.logWouldUse "whois.verisign-grs.com".toList "example.com".toList,
          Effect.connectAttempt "whois.verisign-grs.com".toList 43,
          Effect.logConnectError "whois.verisign-grs.com".toList] ++
          (rwhois_process
            (fun j =>
              if j = 0 then UpstreamOutcome.connectFail
              else UpstreamOutcome.connected true ⟨[104, 105], false⟩) 1
            [LineEvent.ok "example.org".toList]).1,
        (rwhois_process
          (fun j =>
            if j = 0 then UpstreamOutcome.connectFail
            else UpstreamOutcome.connected true ⟨[104, 105], false⟩) 1
          [LineEvent.ok "example.org".toList]).2) :=
  ⟨by decide, by decide, by decide, rfl,
    (connect_failure_preserves_session
      (fun j =>
        if j = 0 then UpstreamOutcome.connectFail
        else UpstreamOutcome.connected true ⟨[104, 105], false⟩) 0
      "example.com".toList "example.com".toList
      "whois.verisign-grs.com".toList [LineEvent.ok "example.org".toList]
      (by decide) (by decide) (by decide) rfl).2.2.2⟩

/-- C6: the routing lookup is an exact match against literal lowercase
keys: a trailing label containing an uppercase letter is never found, so
such a query takes the rejection path ("Invalid domain name", session
terminates with `InvalidDomainError`) rather than being routed. -/
theorem uppercase_label_takes_rejection_path
    (net : Nat → UpstreamOutcome) (k : Nat) (l token : List Char) (c : Char)
    (rest : List LineEvent)
    (h1 : split_whitespace l = [token])
    (h2 : (splitDot token).length > 1)
    (hc : c ∈ (splitDot token).getLastD [])
    (hu : c.isUpper = true) :
    WHOIS_LUT ((splitDot token).getLastD []) = none ∧
    rwhois_process net k (LineEvent.ok l :: rest) =
      ([Effect.clientWrite (strBytes "Invalid domain name".toList)],
        Except.error RWhoisError.InvalidDomainError) := by
  have h3 := WHOIS_LUT_of_upper ((splitDot token).getLastD []) c hc hu
  exact ⟨h3, rwhois_process_cons_ok_some net k l rest _ _ _
    (processLine_invalid net k l token h1 h2 h3)⟩

theorem uppercase_label_witness :
    split_whitespace "example.COM".toList = ["example.COM".toList] ∧
    (splitDot "example.COM".toList).length > 1 ∧
    'C' ∈ (splitDot "example.COM".toList).getLastD [] ∧
    Char.isUpper 'C' = true ∧
    (WHOIS_LUT ((splitDot "example.COM".toList).getLastD []) = none ∧
    rwhois_process (fun _ => UpstreamOutcome.connectFail) 0
        [LineEvent.ok "example.COM".toList] =
      ([Effect.clientWrite (strBytes "Invalid domain name".toList)],
        Except.error RWhoisError.InvalidDomainError)) :=
  ⟨by decide, by decide, by decide, by decide,
    uppercase_label_takes_rejection_path (fun _ => UpstreamOutcome.connectFail)
      0 "example.COM".toList "example.COM".toList 'C' []
      (by decide) (by decide) (by decide) (by decide)⟩

/-- C7: end-of-stream from the client ends the session cleanly with
`Ok(())` after logging the close; in particular a session whose event
stream is empty makes no connection attempt and writes no bytes to the
client or upstream. -/
theorem eos_clean_shutdown (net : Nat → UpstreamOutcome) (k : Nat) :
    rwhois_process net k [] = ([Effect.logClose], Except.ok ()) ∧
    connectsOf (rwhois_process net k []).1 = [] ∧
    clientChunksOf (rwhois_process net k []).1 = [] ∧
    upstreamWritesOf (rwhois_process net k []).1 = [] := by
  refine ⟨rwhois_process_nil net k, ?_, ?_, ?_⟩ <;>
    rw [rwhois_process_nil net k] <;>
    simp [connectsOf, clientChunksOf, upstreamWritesOf]

/-- C8: a framing error never ends the session: it is logged and the loop
goes on with the remaining events unchanged; moreover no session result
is ever the codec (framing) error value. -/
theorem framing_error_logged_session_continues
    (net : Nat → UpstreamOutcome) (k : Nat) (rest : List LineEvent) :
    rwhois_process net k (LineEvent.err :: rest) =
      (Effect.logFramingError :: (rwhois_process net k rest).1,
        (rwhois_process net k rest).2) ∧
    ∀ (events : List LineEvent) (k2 : Nat),
      (rwhois_process net k2 events).2 ≠ Except.error RWhoisError.CodecError :=
  ⟨rwhois_process_cons_err net k rest,
    fun events k2 => rwhois_result_not_codec net events k2⟩

/-- C9 as stated is false at a concrete input: with the upstream
connected but the `write_all` of the forwarded query failing (and nothing
relayed), handling "example.com" emits no error-log effect at all — the
source has no `else` arm on the write, so the failure is silently
dropped (the claim says it is logged). The query is still abandoned
without touching the client and without terminating the session. -/
theorem write_failure_unlogged_counterexample :
    (fun _ : Nat => UpstreamOutcome.connected false ⟨[], false⟩) 0 =
      UpstreamOutcome.connected false ⟨[], false⟩ ∧
    (processLine (fun _ => UpstreamOutcome.connected false ⟨[], false⟩) 0
        "example.com".toList).1.filter Effect.isErrorLog = [] ∧
    clientChunksOf
      (processLine (fun _ => UpstreamOutcome.connected false ⟨[], false⟩) 0
        "example.com".toList).1 = [] ∧
    (processLine (fun _ => UpstreamOutcome.connected false ⟨[], false⟩) 0
        "example.com".toList).2.2 = none := by
  decide

/-- C9 (amended): when the write of the forwarded query to the upstream
connection fails, nothing is logged; the upstream connection is dropped,
no copy to the client is performed for that query, and the session
returns to reading the next line (it does not terminate). -/
theorem write_failure_silently_abandons_query
    (net : Nat → UpstreamOutcome) (k : Nat) (l token host : List Char)
    (cp : CopyOutcome) (rest : List LineEvent)
    (h1 : split_whitespace l = [token])
    (h2 : (splitDot token).length > 1)
    (h3 : WHOIS_LUT ((splitDot token).getLastD []) = some host)
    (h4 : net k = UpstreamOutcome.connected false cp) :
    processLine net k l =
      ([Effect.logWouldUse host token, Effect.connectAttempt host 43,
        Effect.upstreamWrite (strBytes (token ++ ['\r', '\n']))], k + 1, none) ∧
    (processLine net k l).1.filter Effect.isErrorLog = [] ∧
    clientChunksOf (processLine net k l).1 = [] ∧
    rwhois_process net k (LineEvent.ok l :: rest) =
      ([Effect.logWouldUse host token, Effect.connectAttempt host 43,
          Effect.upstreamWrite (strBytes (token ++ ['\r', '\n']))] ++
          (rwhois_process net (k + 1) rest).1,
        (rwhois_process net (k + 1) rest).2) := by
  have hp := processLine_write_fail net k l token host cp h1 h2 h3 h4
  refine ⟨hp, ?_, ?_, ?_⟩
  · rw [hp]; simp [Effect.isErrorLog]
  · rw [hp]; simp [clientChunksOf]
  · exact rwhois_process_cons_ok_none net k l rest _ _ hp

theorem write_failure_silent_witness :
    split_whitespace "example.com".toList = ["example.com".toList] ∧
    (splitDot "example.com".toList).length > 1 ∧
    WHOIS_LUT ((splitDot "example.com".toList).getLastD []) =
      some "whois.verisign-grs.com".toList ∧
    (fun _ : Nat => UpstreamOutcome.connected false ⟨[7], true⟩) 0 =
      UpstreamOutcome.connected false ⟨[7], true⟩ ∧
    rwhois_process (fun _ => UpstreamOutcome.connected false ⟨[7], true⟩) 0
        (LineEvent.ok "example.com".toList :: []) =
      ([Effect.logWouldUse "whois.verisign-grs.com".toList
            "example.com".toList,
          Effect.connectAttempt "whois.verisign-grs.com".toList 43,
          Effect.upstreamWrite
            (strBytes ("example.com".toList ++ ['\r', '\n']))] ++
          (rwhois_process (fun _ => UpstreamOutcome.connected false ⟨[7], true⟩)
            1 []).1,
        (rwhois_process (fun _ => UpstreamOutcome.connected false ⟨[7], true⟩)
          1 []).2) :=
  ⟨by decide, by decide, by decide, rfl,
    (write_failure_silently_abandons_query
      (fun _ => UpstreamOutcome.connected false ⟨[7], true⟩) 0
      "example.com".toList "example.com".toList
      "whois.verisign-grs.com".toList ⟨[7], true⟩ []
      (by decide) (by decide) (by decide) rfl).2.2.2⟩

/-- C10: a single-token line ending in '.' splits into at least two
labels whose last label is empty; the empty string is not a routing key,
so the client gets the "Invalid domain name" rejection and the session
terminates — while the same token without the trailing dot (when it has
fewer than two labels) is silently ignored. -/
theorem trailing_dot_not_ignored
    (net : Nat → UpstreamOutcome) (k : Nat) (cs l : List Char)
    (rest : List LineEvent)
    (h1 : split_whitespace l = [cs ++ ['.']]) :
    (splitDot (cs ++ ['.'])).length ≥ 2 ∧
    (splitDot (cs ++ ['.'])).getLastD [] = [] ∧
    WHOIS_LUT [] = none ∧
    rwhois_process net k (LineEvent.ok l :: rest) =
      ([Effect.clientWrite (strBytes "Invalid domain name".toList)],
        Except.error RWhoisError.InvalidDomainError) ∧
    (∀ (net2 : Nat → UpstreamOutcome) (k2 : Nat) (l2 : List Char),
      split_whitespace l2 = [cs] → (splitDot cs).length < 2 →
      processLine net2 k2 l2 = ([], k2, none)) := by
  have hsd := splitDot_concat_dot cs
  have hne : (splitDot cs).length ≥ 1 := List.length_pos.mpr (splitDot_ne_nil cs)
  have hlen : (splitDot (cs ++ ['.'])).length ≥ 2 := by
    rw [hsd]
    simp only [List.length_append, List.length_singleton]
    omega
  have hlast : (splitDot (cs ++ ['.'])).getLastD [] = [] := by
    rw [hsd]
    exact getLastD_of_concat _ _ _
  have hlut : WHOIS_LUT [] = none := by decide
  have h3 : WHOIS_LUT ((splitDot (cs ++ ['.'])).getLastD []) = none := by
    rw [hlast]
    exact hlut
  refine ⟨hlen, hlast, hlut, ?_, ?_⟩
  · exact rwhois_process_cons_ok_some net k l rest _ _ _
      (processLine_invalid net k l (cs ++ ['.']) h1 (by omega) h3)
  · intro net2 k2 l2 hl2 hfew
    exact processLine_few_labels net2 k2 l2 cs hl2 (by omega)

theorem trailing_dot_witness :
    split_whitespace "example.".toList = ["example".toList ++ ['.']] ∧
    (splitDot ("example".toList ++ ['.'])).length ≥ 2 ∧
    (splitDot ("example".toList ++ ['.'])).getLastD [] = [] ∧
    WHOIS_LUT [] = none ∧
    rwhois_process (fun _ => UpstreamOutcome.connectFail) 0
        [LineEvent.ok "example.".toList] =
      ([Effect.clientWrite (strBytes "Invalid domain name".toList)],
        Except.error RWhoisError.InvalidDomainError) ∧
    processLine (fun _ => UpstreamOutcome.connectFail) 0 "example".toList =
      ([], 0, none) := by
  have h := trailing_dot_not_ignored (fun _ => UpstreamOutcome.connectFail) 0
    "example".toList "example.".toList [] (by decide)
  exact ⟨by decide, h.1, h.2.1, h.2.2.1, h.2.2.2.1,
    h.2.2.2.2 (fun _ => UpstreamOutcome.connectFail) 0 "example".toList
      (by decide) (by decide)⟩
